import Mathlib

/-!
Verification of the error-queue PAL shim
`src/Native/Unix/System.Security.Cryptography.Native/pal_err.cpp`.

The shim forwards to the underlying cryptographic library's ERR API.  That
library (and the helper `UnsignedCast` from `pal_utilities.h`) is not part of
the sources being verified, so its operations are modelled from the
specification: the thread's error queue is a FIFO list of codes, oldest
first, and each operation is a state transformer on that queue.  The shim
functions themselves are translated from `pal_err.cpp`.
-/

/-- An error code as held in the calling thread's queue: the numeric value of
an `unsigned long` error code. -/
abbrev ErrCode := Nat

/-- The calling thread's error queue, oldest entry first. -/
abbrev ErrQueue := List ErrCode

/-- Modelled from the spec: `ERR_clear_error` of the underlying library (not
under `src/`) discards all entries currently in the calling thread's error
queue. -/
def ERR_clear_error (_q : ErrQueue) : Unit × ErrQueue := ((), [])

/-- Modelled from the spec: `ERR_get_error` of the underlying library (not
under `src/`) pops (removes and returns) the oldest error code from the
queue, or returns zero if the queue is empty. -/
def ERR_get_error : ErrQueue → ErrCode × ErrQueue
  | [] => (0, [])
  | c :: rest => (c, rest)

/-- Modelled from the spec: `ERR_peek_error` of the underlying library (not
under `src/`) returns the oldest error code without removing it, leaving the
queue unchanged, and returns zero if the queue is empty. -/
def ERR_peek_error (q : ErrQueue) : ErrCode × ErrQueue := (q.headD 0, q)

/-- Modelled from the spec: `ERR_peek_last_error` of the underlying library
(not under `src/`) returns the most recently pushed error code without
removing it, leaving the queue unchanged, and returns zero if the queue is
empty. -/
def ERR_peek_last_error (q : ErrQueue) : ErrCode × ErrQueue := (q.getLastD 0, q)

/-- Modelled from the spec: the library macro `ERR_GET_REASON` (not under
`src/`) extracts the reason sub-field embedded in the low bits of an error
code. -/
def ERR_GET_REASON (e : Nat) : Nat := e % 4096

/-- Modelled from the spec: the library constant `ERR_R_MALLOC_FAILURE` (not
under `src/`), the reason code identifying an internal memory-allocation
failure. -/
def ERR_R_MALLOC_FAILURE : Nat := 65

/-- Modelled from the spec: the library's internal table mapping the reason
codes it knows to human-readable reason strings; a code with no known
mapping has no entry. -/
def reasonTable : List (Nat × String) :=
  [(ERR_R_MALLOC_FAILURE, "malloc failure"), (68, "internal error")]

/-- Modelled from the spec: `ERR_reason_error_string` of the underlying
library (not under `src/`) is a pure decode of the code's embedded reason
field, returning the known reason string or a null pointer (`none`) when the
code has no known mapping. -/
def ERR_reason_error_string (e : Nat) : Option String :=
  reasonTable.lookup (ERR_GET_REASON e)

/-- Modelled from the spec: the human-readable description of an error code
that the library's buffer-formatting routine produces before truncation. -/
def errDescription (e : Nat) : List Char :=
  String.toList "error:" ++ Nat.toDigits 16 e

/-- Modelled from the spec: `ERR_error_string_n` of the underlying library
(not under `src/`) writes into a buffer of capacity `len` the description of
code `e`, truncated to fit, always null-terminated; with `len = 0` it writes
nothing.  The result is the exact list of bytes written to the buffer. -/
def ERR_error_string_n (e : Nat) (len : Nat) : List Char :=
  if len = 0 then [] else List.take (len - 1) (errDescription e) ++ [Char.ofNat 0]

/-- Modelled from the spec: `UnsignedCast` from `pal_utilities.h` (not under
`src/`) validates that a signed value is non-negative and converts it to the
platform's unsigned size type; `none` models the failed validation of a
negative value. -/
def UnsignedCast (x : Int) : Option Nat :=
  if 0 ≤ x then some x.toNat else none

/-- The truncation performed by `static_cast<unsigned long>` on a `uint64_t`
argument, on a platform whose `unsigned long` is `w` bits wide. -/
def ulongCast (w : Nat) (e : Nat) : Nat := e % 2 ^ w

/-- Shim function `CryptoNative_ErrClearError` from `pal_err.cpp`: forwards
to `ERR_clear_error`. -/
def CryptoNative_ErrClearError (q : ErrQueue) : Unit × ErrQueue :=
  ERR_clear_error q

/-- Shim function `CryptoNative_ErrGetError` from `pal_err.cpp`: forwards to
`ERR_get_error` (the `unsigned long` result is widened to `uint64_t`, the
identity on the numeric value). -/
def CryptoNative_ErrGetError (q : ErrQueue) : Nat × ErrQueue :=
  ERR_get_error q

/-- Shim function `CryptoNative_ErrGetErrorAlloc` from `pal_err.cpp`: pops
via `ERR_get_error`; when the `isAllocFailure` output slot is non-null
(`slotProvided`), writes 1 into it when the popped code's reason equals
`ERR_R_MALLOC_FAILURE` and 0 otherwise.  The first result component pairs
the returned code with the value written to the slot (`none` when the slot
is null and nothing is written). -/
def CryptoNative_ErrGetErrorAlloc (slotProvided : Bool) (q : ErrQueue) :
    (Nat × Option Nat) × ErrQueue :=
  let r := ERR_get_error q
  let written : Option Nat :=
    if slotProvided then
      some (if ERR_GET_REASON r.1 = ERR_R_MALLOC_FAILURE then 1 else 0)
    else none
  ((r.1, written), r.2)

/-- Shim function `CryptoNative_ErrPeekError` from `pal_err.cpp`: forwards
to `ERR_peek_error`. -/
def CryptoNative_ErrPeekError (q : ErrQueue) : Nat × ErrQueue :=
  ERR_peek_error q

/-- Shim function `CryptoNative_ErrPeekLastError` from `pal_err.cpp`:
forwards to `ERR_peek_last_error`. -/
def CryptoNative_ErrPeekLastError (q : ErrQueue) : Nat × ErrQueue :=
  ERR_peek_last_error q

/-- Shim function `CryptoNative_ErrReasonErrorString` from `pal_err.cpp`:
truncates its `uint64_t` argument with `static_cast<unsigned long>` and
forwards to `ERR_reason_error_string`.  The queue is passed through to state
that the call leaves it unchanged. -/
def CryptoNative_ErrReasonErrorString (w : Nat) (error : Nat) (q : ErrQueue) :
    Option String × ErrQueue :=
  (ERR_reason_error_string (ulongCast w error), q)

/-- Shim function `CryptoNative_ErrErrorStringN` from `pal_err.cpp`:
truncates its `uint64_t` code with `static_cast<unsigned long>`, converts the
signed capacity with `UnsignedCast`, and forwards to `ERR_error_string_n`.
The first result component is the list of bytes written to the buffer
(`none` when the capacity fails validation); the queue is passed through to
state that the call leaves it unchanged. -/
def CryptoNative_ErrErrorStringN (w : Nat) (e : Nat) (len : Int) (q : ErrQueue) :
    Option (List Char) × ErrQueue :=
  ((UnsignedCast len).map (fun n => ERR_error_string_n (ulongCast w e) n), q)

/-- Claim C1: `CryptoNative_ErrGetError` removes and returns the oldest code
of the thread's error queue and returns 0 on an empty queue; after exactly
one code has been pushed onto an empty queue, two successive calls return
that code and then 0. -/
theorem errGetError_pops_oldest :
    (∀ c rest, CryptoNative_ErrGetError (c :: rest) = (c, rest)) ∧
    CryptoNative_ErrGetError [] = (0, []) ∧
    (∀ c, (CryptoNative_ErrGetError [c]).1 = c ∧
      (CryptoNative_ErrGetError (CryptoNative_ErrGetError [c]).2).1 = 0) :=
  ⟨fun _ _ => rfl, rfl, fun _ => ⟨rfl, rfl⟩⟩

/-- Claim C2: with a non-null slot, `CryptoNative_ErrGetErrorAlloc` pops
exactly like `CryptoNative_ErrGetError` and writes 1 into the slot exactly
when the popped code's reason is `ERR_R_MALLOC_FAILURE`, else 0; on an empty
queue it returns 0 and the slot receives the decode of the zero code, 0. -/
theorem errGetErrorAlloc_flag (q : ErrQueue) :
    (CryptoNative_ErrGetErrorAlloc true q).1.1 = (CryptoNative_ErrGetError q).1 ∧
    (CryptoNative_ErrGetErrorAlloc true q).2 = (CryptoNative_ErrGetError q).2 ∧
    (CryptoNative_ErrGetErrorAlloc true q).1.2 =
      some (if ERR_GET_REASON (CryptoNative_ErrGetError q).1 = ERR_R_MALLOC_FAILURE
        then 1 else 0) ∧
    (CryptoNative_ErrGetErrorAlloc true []).1.1 = 0 ∧
    (CryptoNative_ErrGetErrorAlloc true []).1.2 = some 0 := by
  obtain _ | ⟨c, rest⟩ := q <;>
    simp [CryptoNative_ErrGetErrorAlloc, CryptoNative_ErrGetError, ERR_get_error,
      ERR_GET_REASON, ERR_R_MALLOC_FAILURE]

/-- Claim C3: with a null slot, `CryptoNative_ErrGetErrorAlloc` returns the
same code and leaves the same queue as `CryptoNative_ErrGetError`, and
writes nothing through the slot (it is never dereferenced). -/
theorem errGetErrorAlloc_null_slot (q : ErrQueue) :
    (CryptoNative_ErrGetErrorAlloc false q).1.1 = (CryptoNative_ErrGetError q).1 ∧
    (CryptoNative_ErrGetErrorAlloc false q).2 = (CryptoNative_ErrGetError q).2 ∧
    (CryptoNative_ErrGetErrorAlloc false q).1.2 = none := by
  obtain _ | ⟨c, rest⟩ := q <;>
    simp [CryptoNative_ErrGetErrorAlloc, CryptoNative_ErrGetError, ERR_get_error]

/-- Claim C4: `CryptoNative_ErrClearError` empties the thread's error queue,
so the next get, peek, or peek-last returns 0; clearing an already-empty
queue is a no-op. -/
theorem errClearError_empties (q : ErrQueue) :
    (CryptoNative_ErrClearError q).2 = [] ∧
    (CryptoNative_ErrGetError (CryptoNative_ErrClearError q).2).1 = 0 ∧
    (CryptoNative_ErrPeekError (CryptoNative_ErrClearError q).2).1 = 0 ∧
    (CryptoNative_ErrPeekLastError (CryptoNative_ErrClearError q).2).1 = 0 ∧
    CryptoNative_ErrClearError [] = ((), []) :=
  ⟨rfl, rfl, rfl, rfl, rfl⟩

/-- Claim C5: `CryptoNative_ErrPeekError` returns the oldest error code
without removing it, leaving the queue unchanged, returns 0 on an empty
queue, and repeated peeks without an intervening get return the same code. -/
theorem errPeekError_no_mutation (q : ErrQueue) :
    (CryptoNative_ErrPeekError q).2 = q ∧
    (∀ c rest, (CryptoNative_ErrPeekError (c :: rest)).1 = c) ∧
    (CryptoNative_ErrPeekError []).1 = 0 ∧
    (CryptoNative_ErrPeekError (CryptoNative_ErrPeekError q).2).1 =
      (CryptoNative_ErrPeekError q).1 :=
  ⟨rfl, fun _ _ => rfl, rfl, rfl⟩

/-- Claim C6: `CryptoNative_ErrPeekLastError` returns the most recently
pushed error code without removing it, leaving the queue unchanged, and
returns 0 on an empty queue. -/
theorem errPeekLastError_newest (q : ErrQueue) :
    (CryptoNative_ErrPeekLastError q).2 = q ∧
    (∀ rest c, (CryptoNative_ErrPeekLastError (rest ++ [c])).1 = c) ∧
    (CryptoNative_ErrPeekLastError []).1 = 0 := by
  refine ⟨rfl, fun rest c => ?_, rfl⟩
  simp [CryptoNative_ErrPeekLastError, ERR_peek_last_error, List.getLastD_eq_getLast?]

/-- Claim C7: `CryptoNative_ErrReasonErrorString` is a pure decode of its
(truncated) code argument, leaves the error queue unchanged, and returns a
null result (`none`) for a code whose reason has no known mapping. -/
theorem errReasonErrorString_pure_decode (w e : Nat) (q : ErrQueue) :
    CryptoNative_ErrReasonErrorString w e q =
      (ERR_reason_error_string (ulongCast w e), q) ∧
    (CryptoNative_ErrReasonErrorString w e q).2 = q ∧
    (reasonTable.lookup (ERR_GET_REASON (ulongCast w e)) = none →
      (CryptoNative_ErrReasonErrorString w e q).1 = none) :=
  ⟨rfl, rfl, fun h => h⟩

/-- Witness for claim C7 at the concrete code 1 (reason 1 has no entry in
the modelled reason table) on a 32-bit `unsigned long` platform. -/
theorem errReasonErrorString_pure_decode_witness :
    CryptoNative_ErrReasonErrorString 32 1 [] =
      (ERR_reason_error_string (ulongCast 32 1), []) ∧
    (CryptoNative_ErrReasonErrorString 32 1 []).1 = none :=
  ⟨(errReasonErrorString_pure_decode 32 1 []).1,
    (errReasonErrorString_pure_decode 32 1 []).2.2 (by decide)⟩

/-- Claim C8: for any code and any capacity at least 1,
`CryptoNative_ErrErrorStringN` writes at most `capacity` bytes into the
buffer, the last byte written is a null terminator, and the call leaves the
error queue unchanged and reports no failure. -/
theorem errErrorStringN_bounded (w e : Nat) (len : Int) (q : ErrQueue)
    (h : 1 ≤ len) :
    (CryptoNative_ErrErrorStringN w e len q).1 =
      some (ERR_error_string_n (ulongCast w e) len.toNat) ∧
    (ERR_error_string_n (ulongCast w e) len.toNat).length ≤ len.toNat ∧
    (ERR_error_string_n (ulongCast w e) len.toNat).getLast? =
      some (Char.ofNat 0) ∧
    (CryptoNative_ErrErrorStringN w e len q).2 = q := by
  have h0 : 0 ≤ len := le_trans (by norm_num) h
  have h1 : 1 ≤ len.toNat := by omega
  refine ⟨?_, ?_, ?_, rfl⟩
  · simp [CryptoNative_ErrErrorStringN, UnsignedCast, h0]
  · have hne : len.toNat ≠ 0 := by omega
    simp only [ERR_error_string_n, hne, if_false, List.length_append,
      List.length_take, List.length_singleton]
    omega
  · have hne : len.toNat ≠ 0 := by omega
    simp [ERR_error_string_n, hne]

/-- Witness for claim C8 at code 5, capacity 3, empty queue, on a 32-bit
`unsigned long` platform. -/
theorem errErrorStringN_bounded_witness :
    (1 : Int) ≤ 3 ∧
    ((CryptoNative_ErrErrorStringN 32 5 3 []).1 =
        some (ERR_error_string_n (ulongCast 32 5) (Int.toNat 3)) ∧
      (ERR_error_string_n (ulongCast 32 5) (Int.toNat 3)).length ≤ Int.toNat 3 ∧
      (ERR_error_string_n (ulongCast 32 5) (Int.toNat 3)).getLast? =
        some (Char.ofNat 0) ∧
      (CryptoNative_ErrErrorStringN 32 5 3 []).2 = []) :=
  ⟨by decide, errErrorStringN_bounded 32 5 3 [] (by decide)⟩

/-- Claim C9: the capacity of `CryptoNative_ErrErrorStringN` is validated
non-negative by `UnsignedCast` and converted to the unsigned size type: a
non-negative capacity converts to an equal unsigned value which is what is
passed to the library, and a negative capacity fails validation. -/
theorem errErrorStringN_capacity_cast (w e : Nat) (len : Int) (q : ErrQueue) :
    (0 ≤ len → UnsignedCast len = some len.toNat ∧ ((len.toNat : Int) = len) ∧
      (CryptoNative_ErrErrorStringN w e len q).1 =
        some (ERR_error_string_n (ulongCast w e) len.toNat)) ∧
    (len < 0 → UnsignedCast len = none) := by
  constructor
  · intro h0
    refine ⟨by simp [UnsignedCast, h0], Int.toNat_of_nonneg h0, ?_⟩
    simp [CryptoNative_ErrErrorStringN, UnsignedCast, h0]
  · intro hneg
    simp [UnsignedCast, not_le.mpr hneg]

/-- Witness for claim C9 at capacity 3 (non-negative branch) and capacity -1
(rejected branch). -/
theorem errErrorStringN_capacity_cast_witness :
    UnsignedCast 3 = some (Int.toNat 3) ∧ UnsignedCast (-1) = none :=
  ⟨((errErrorStringN_capacity_cast 32 0 3 []).1 (by decide)).1,
    (errErrorStringN_capacity_cast 32 0 (-1) []).2 (by decide)⟩

/-- Claim C10: both string operations decode only the code truncated to the
`unsigned long` width `w`, so codes congruent modulo `2 ^ w` give identical
results; on a platform with a 32-bit `unsigned long`, adding `2 ^ 32` to a
code (setting only upper bits) does not change either result. -/
theorem ulong_width_congruent (w e1 e2 : Nat) (len : Int) (q : ErrQueue)
    (h : e1 % 2 ^ w = e2 % 2 ^ w) :
    CryptoNative_ErrReasonErrorString w e1 q =
      CryptoNative_ErrReasonErrorString w e2 q ∧
    CryptoNative_ErrErrorStringN w e1 len q =
      CryptoNative_ErrErrorStringN w e2 len q ∧
    (∀ e, CryptoNative_ErrReasonErrorString 32 (e + 2 ^ 32) q =
      CryptoNative_ErrReasonErrorString 32 e q) ∧
    (∀ e, CryptoNative_ErrErrorStringN 32 (e + 2 ^ 32) len q =
      CryptoNative_ErrErrorStringN 32 e len q) := by
  have hc : ulongCast w e1 = ulongCast w e2 := h
  have hd : ∀ e, ulongCast 32 (e + 2 ^ 32) = ulongCast 32 e := fun e =>
    Nat.add_mod_right e (2 ^ 32)
  refine ⟨?_, ?_, fun e => ?_, fun e => ?_⟩
  · simp [CryptoNative_ErrReasonErrorString, hc]
  · simp [CryptoNative_ErrErrorStringN, hc]
  · unfold CryptoNative_ErrReasonErrorString
    rw [hd e]
  · unfold CryptoNative_ErrErrorStringN
    rw [hd e]

/-- Witness for claim C10 at the congruent pair `2 ^ 32 + 5` and `5` for a
32-bit `unsigned long`. -/
theorem ulong_width_congruent_witness :
    (2 ^ 32 + 5) % 2 ^ 32 = 5 % 2 ^ 32 ∧
    CryptoNative_ErrReasonErrorString 32 (2 ^ 32 + 5) [] =
      CryptoNative_ErrReasonErrorString 32 5 [] :=
  ⟨by norm_num, (ulong_width_congruent 32 (2 ^ 32 + 5) 5 1 [] (by norm_num)).1⟩
